import Mathlib

/-!
# MQTT datasource: topic registry, subscription multiplexing and stream pump

A shallow embedding of `pkg/mqtt/topic.go`, `pkg/mqtt/client.go` and
`pkg/plugin/stream.go`.

* A Go `*Topic` is an address (`Ptr`) into a memory `Ptr → Topic`; the registry
  (`sync.Map`) is an association list from key strings to addresses.
* The paho broker client is a ledger: the paths with a live subscription and the
  log of subscribe / unsubscribe calls it received.  The answer of the broker to
  a call (its token error) is an input of the operation that makes the call.
* Mutexes are not modelled: every operation is one atomic step.
-/

set_option autoImplicit false

namespace MQTT

/-! ## Standard-library functions used by `Topic.Key` -/

/-- Go `strconv.FormatBool`. -/
def FormatBool (b : Bool) : List Char :=
  if b then "true".toList else "false".toList

/-- Go `time.fmtInt`: the decimal digits of `v`, written in front of `buf`
(`fuel` bounds the number of digits). -/
def fmtInt : Nat → List Char → Nat → List Char
  | 0, buf, _ => buf
  | fuel + 1, buf, v =>
    let buf1 := Char.ofNat (v % 10 + 48) :: buf
    if v / 10 = 0 then buf1 else fmtInt fuel buf1 (v / 10)

/-- Go `time.fmtFrac`: the fraction `v / 10^prec` written in front of `buf`,
trailing zeros omitted; returns the new buffer and `v / 10^prec`.  The flag is
the loop variable `print`. -/
def fmtFrac : Nat → Bool → List Char → Nat → List Char × Nat
  | 0, print, buf, v => (if print then '.' :: buf else buf, v)
  | prec + 1, print, buf, v =>
    let digit := v % 10
    let print1 := print || decide (digit ≠ 0)
    fmtFrac prec print1 (if print1 then Char.ofNat (digit + 48) :: buf else buf) (v / 10)

/-- Go `time.Duration.String` (a `Duration` is a count of nanoseconds). -/
def DurationString (d : Int) : List Char :=
  let u := d.natAbs
  let body : List Char :=
    if u < 1000000000 then
      if u = 0 then ['0', 's']
      else if u < 1000 then
        let r := fmtFrac 0 false ['n', 's'] u
        fmtInt 20 r.1 r.2
      else if u < 1000000 then
        let r := fmtFrac 3 false ['µ', 's'] u
        fmtInt 20 r.1 r.2
      else
        let r := fmtFrac 6 false ['m', 's'] u
        fmtInt 20 r.1 r.2
    else
      let r := fmtFrac 9 false ['s'] u
      let w1 := fmtInt 20 r.1 (r.2 % 60)
      let u1 := r.2 / 60
      if u1 > 0 then
        let w2 := fmtInt 20 ('m' :: w1) (u1 % 60)
        let u2 := u1 / 60
        if u2 > 0 then fmtInt 20 ('h' :: w2) u2 else w2
      else w1
  if d < 0 then '-' :: body else body

/-- The backtracking step of Go `path.Clean` on a `..` element: drop the last
written element of `out` (kept in reverse, newest byte first) down to index
`dotdot`: `out.w--` and then `for out.w > dotdot && out.index(out.w) != '/'`. -/
def cleanBacktrack (dotdot : Nat) : List Char → List Char
  | [] => []
  | c :: rest =>
    if rest.length > dotdot ∧ c ≠ '/' then cleanBacktrack dotdot rest else rest

/-- The main loop of Go `path.Clean`: `path` is the part still to read,
`out` the bytes written so far (in order), `dotdot` the index where `..` must
stop. -/
def cleanLoop : Nat → Bool → List Char → List Char → Nat → List Char
  | 0, _, _, out, _ => out
  | fuel + 1, rooted, path, out, dotdot =>
    match path with
    | [] => out
    | c :: rest =>
      if c = '/' then
        cleanLoop fuel rooted rest out dotdot
      else if c = '.' ∧ (rest = [] ∨ rest.head? = some '/') then
        cleanLoop fuel rooted rest out dotdot
      else if c = '.' ∧ rest.head? = some '.' ∧
          (rest.tail = [] ∨ rest.tail.head? = some '/') then
        if out.length > dotdot then
          cleanLoop fuel rooted rest.tail (cleanBacktrack dotdot out.reverse).reverse dotdot
        else if ¬ rooted then
          let out1 := (if out.length > 0 then out ++ ['/'] else out) ++ ['.', '.']
          cleanLoop fuel rooted rest.tail out1 out1.length
        else
          cleanLoop fuel rooted rest.tail out dotdot
      else
        let out1 :=
          if (rooted ∧ out.length ≠ 1) ∨ (¬ rooted ∧ out.length ≠ 0) then out ++ ['/']
          else out
        let elem := path.takeWhile (fun x => decide (x ≠ '/'))
        cleanLoop fuel rooted (path.dropWhile (fun x => decide (x ≠ '/'))) (out1 ++ elem) dotdot

/-- Go `path.Clean`. -/
def Clean (path : List Char) : List Char :=
  match path with
  | [] => ['.']
  | c :: rest =>
    let out :=
      if c = '/' then cleanLoop (path.length + 1) true rest ['/'] 1
      else cleanLoop (path.length + 1) false path [] 0
    if out.length = 0 then ['.'] else out

/-- The loop of Go `path.Join` that concatenates the non-empty elements with
slashes. -/
def joinBuf : List Char → List (List Char) → List Char
  | buf, [] => buf
  | buf, e :: es =>
    if buf.length > 0 ∨ e ≠ [] then
      joinBuf ((if buf.length > 0 then buf ++ ['/'] else buf) ++ e) es
    else joinBuf buf es

/-- Go `path.Join`. -/
def Join (elem : List (List Char)) : List Char :=
  if (elem.map List.length).sum = 0 then [] else Clean (joinBuf [] elem)

/-! ## Data model (`pkg/mqtt/topic.go`) -/

/-- The address of a `Topic` object: the model of a Go `*Topic`. -/
abbrev Ptr := Nat

/-- A Go `error`, by its message. -/
abbrev Error := String

/-- The digest applied to the key string: `sha1.Sum` followed by
`base64.URLEncoding.EncodeToString`.  It is an input of the model. -/
abbrev Digest := List Char → String

/-- The Go struct `Message`: `Timestamp` in nanoseconds, `Value` as bytes. -/
structure Message where
  Timestamp : Int
  Value : List Nat
deriving DecidableEq

/-- The Go struct `Topic`.  `Interval` is a `time.Duration` (nanoseconds),
`Active` the value of the `atomic.Bool`.  The lazily built framer is
represented by the conversion function given to `ToDataFrame`; the mutex is
dropped. -/
structure Topic where
  Path : String
  Downsample : Bool
  Interval : Int
  Messages : List Message
  Active : Bool
deriving DecidableEq

/-- The memory holding the `Topic` objects that pointers refer to. -/
abbrev Mem := Ptr → Topic

/-- Overwrite the object at address `p`. -/
def Mem.set (mem : Mem) (p : Ptr) (t : Topic) : Mem :=
  fun q => if q = p then t else mem q

/-- The string that `Topic.Key` hashes:
`path.Join(strconv.FormatBool(t.Downsample), t.Interval.String(), t.Path)`. -/
def Topic.KeyInput (t : Topic) : List Char :=
  Join [FormatBool t.Downsample, DurationString t.Interval, t.Path.toList]

/-- The Go method `Topic.Key`. -/
def Topic.Key (digest : Digest) (t : Topic) : String :=
  digest t.KeyInput

/-- The Go method `Topic.ToDataFrame`: swaps the buffer for an empty one and
gives the framer the whole batch, or its last message when downsampling.
Returns the topic afterwards and the result of `framer.toFrame`. -/
def Topic.ToDataFrame {R : Type} (toFrame : List Message → R) (t : Topic) : Topic × R :=
  let m := t.Messages
  let t1 := { t with Messages := [] }
  if t.Downsample ∧ m.length > 0 then
    (t1, toFrame (m.drop (m.length - 1)))
  else
    (t1, toFrame m)

/-- The Go method `Topic.AddMessage`. -/
def Topic.AddMessage (t : Topic) (message : Message) : Topic :=
  { t with Messages := t.Messages ++ [message] }

/-- The Go type `TopicMap`: a `sync.Map` whose keys are strings and whose
values are always `*Topic`. -/
structure TopicMap where
  entries : List (String × Ptr)

/-- The Go method `TopicMap.Load`. -/
def TopicMap.Load (tm : TopicMap) (key : String) : Option Ptr :=
  (tm.entries.find? (fun e => decide (e.1 = key))).map Prod.snd

/-- The Go method `TopicMap.AddMessage`: ranges over the map and appends the
message to each topic whose path matches.  (The type assertion cannot fail
here, the values being pointers to topics.) -/
def TopicMap.AddMessage (tm : TopicMap) (mem : Mem) (path : String) (message : Message) : Mem :=
  tm.entries.foldl
    (fun m e => if (m e.2).Path = path then m.set e.2 ((m e.2).AddMessage message) else m) mem

/-- The Go method `TopicMap.HasSubscription`. -/
def TopicMap.HasSubscription (tm : TopicMap) (mem : Mem) (path : String) : Bool :=
  tm.entries.any (fun e => (mem e.2).Active && decide ((mem e.2).Path = path))

/-- The Go method `TopicMap.Store`: `LoadOrStore(t.Key(), t)`. -/
def TopicMap.Store (digest : Digest) (tm : TopicMap) (mem : Mem) (t : Ptr) : TopicMap :=
  match tm.Load ((mem t).Key digest) with
  | some _ => tm
  | none => { entries := tm.entries ++ [((mem t).Key digest, t)] }

/-- The Go method `TopicMap.Delete`. -/
def TopicMap.Delete (tm : TopicMap) (key : String) : TopicMap :=
  { entries := tm.entries.filter (fun e => decide (e.1 ≠ key)) }

/-! ## The broker client and the subscription controller (`pkg/mqtt/client.go`) -/

/-- A call received by the paho client. -/
inductive BrokerCall where
  | Subscribe (path : String)
  | Unsubscribe (path : String)
deriving DecidableEq

/-- The paho client as seen from this package: the paths with a live
subscription and the calls received so far, oldest first. -/
structure Broker where
  subscriptions : List String
  calls : List BrokerCall
deriving DecidableEq

/-- The call `paho.Client.Subscribe(path, 0, handler)` whose token ends with
`err`: a subscription is live afterwards when the broker accepted. -/
def Broker.Subscribe (b : Broker) (path : String) (err : Option Error) : Broker :=
  { subscriptions := if err = none then path :: b.subscriptions else b.subscriptions
    calls := b.calls ++ [BrokerCall.Subscribe path] }

/-- The call `paho.Client.Unsubscribe(path)` whose token ends with `err`. -/
def Broker.Unsubscribe (b : Broker) (path : String) (err : Option Error) : Broker :=
  { subscriptions :=
      if err = none then b.subscriptions.filter (fun p => decide (p ≠ path))
      else b.subscriptions
    calls := b.calls ++ [BrokerCall.Unsubscribe path] }

/-- The Go struct `client` together with the memory its topic pointers refer
to.  The field `paho` is the Go field `client paho.Client`. -/
structure client where
  mem : Mem
  paho : Broker
  topics : TopicMap

/-- The Go method `client.HandleMessage`; `now` is the value of `time.Now()`. -/
def client.HandleMessage (c : client) (now : Int) (topic : String) (payload : List Nat) : client :=
  { c with mem := c.topics.AddMessage c.mem topic { Timestamp := now, Value := payload } }

/-- The Go method `client.GetTopic`. -/
def client.GetTopic (c : client) (reqPath : String) : Option Ptr :=
  c.topics.Load reqPath

/-- The Go method `client.StoreTopic`; `none` is the nil pointer. -/
def client.StoreTopic (digest : Digest) (c : client) (t : Option Ptr) : client :=
  match t with
  | none => c
  | some p => { c with topics := c.topics.Store digest c.mem p }

/-- The statement `t.Active.Store(true)`. -/
def client.setActive (c : client) (t : Ptr) : client :=
  { c with mem := c.mem.set t { c.mem t with Active := true } }

/-- The Go method `client.Subscribe`; `brokerErr` is the error of the token
the broker returns if it is asked. -/
def client.Subscribe (c : client) (brokerErr : Option Error) (t : Ptr) : client × Option Error :=
  if c.topics.HasSubscription c.mem (c.mem t).Path then
    (c.setActive t, none)
  else
    let c1 := { c with paho := c.paho.Subscribe (c.mem t).Path brokerErr }
    match brokerErr with
    | some e => (c1, some e)
    | none => (c1.setActive t, none)

/-- The Go method `client.Unsubscribe`; `brokerErr` is the error of the token
the broker returns if it is asked (it is only logged). -/
def client.Unsubscribe (digest : Digest) (c : client) (brokerErr : Option Error) (t : Ptr) : client :=
  let c1 := { c with topics := c.topics.Delete ((c.mem t).Key digest) }
  if c1.topics.HasSubscription c1.mem (c1.mem t).Path then
    c1
  else
    { c1 with paho := c1.paho.Unsubscribe (c1.mem t).Path brokerErr }

/-! ## The stream pump (`pkg/plugin/stream.go`) -/

/-- What the `select` of `RunStream` receives: the context is done, or the
ticker fires; a tick carries the answer `sender.SendFrame` gives if called. -/
inductive StreamEvent where
  | Done
  | Tick (sendErr : Option Error)
deriving DecidableEq

/-- A call `RunStream` makes on the `Client` interface. -/
inductive ClientCall where
  | GetTopic (reqPath : String)
  | Subscribe (t : Ptr)
  | Unsubscribe (t : Ptr)
deriving DecidableEq

/-- How far a run of `RunStream` got: still waiting in the `select`, returned
`err`, or stopped by the panic of `time.NewTicker` on a non-positive interval. -/
inductive Outcome where
  | Waiting
  | Returned (err : Option Error)
  | Panicked
deriving DecidableEq

/-- What a run of `RunStream` did: the state it leaves, how it ended, the calls
it made on the `Client` interface, the number of `ToDataFrame` calls and the
frames given to `sender.SendFrame`. -/
structure StreamResult (Frame : Type) where
  state : client
  returned : Outcome
  clientCalls : List ClientCall
  drains : Nat
  sent : List Frame

/-- The `for`/`select` loop of `RunStream`, one event per round, with the
deferred `Client.Unsubscribe(topic)` run when the function returns. -/
def pumpLoop {Frame : Type} (digest : Digest) (toFrame : List Message → Except Error Frame)
    (unsubErr : Option Error) (topic : Ptr) :
    List StreamEvent → client → List ClientCall → Nat → List Frame → StreamResult Frame
  | [], c, calls, drains, sent =>
    { state := c, returned := Outcome.Waiting, clientCalls := calls, drains := drains, sent := sent }
  | StreamEvent.Done :: _, c, calls, drains, sent =>
    { state := c.Unsubscribe digest unsubErr topic
      returned := Outcome.Returned none
      clientCalls := calls ++ [ClientCall.Unsubscribe topic]
      drains := drains
      sent := sent }
  | StreamEvent.Tick _ :: rest, c, calls, drains, sent =>
    let r := (c.mem topic).ToDataFrame toFrame
    let c1 := { c with mem := c.mem.set topic r.1 }
    match r.2 with
    | Except.error _ => pumpLoop digest toFrame unsubErr topic rest c1 calls (drains + 1) sent
    | Except.ok frame =>
      pumpLoop digest toFrame unsubErr topic rest c1 calls (drains + 1) (sent ++ [frame])

/-- The Go method `MQTTDatasource.RunStream` on the request path `reqPath`.
`subErr` and `unsubErr` are the answers of the broker to a subscribe and an
unsubscribe request, `events` what the `select` receives, in order.  The
deferred `Client.Unsubscribe(topic)` is registered after the three early
returns; it also runs when `time.NewTicker` panics. -/
def RunStream {Frame : Type} (digest : Digest) (toFrame : List Message → Except Error Frame)
    (subErr unsubErr : Option Error) (c : client) (reqPath : String)
    (events : List StreamEvent) : StreamResult Frame :=
  match c.GetTopic reqPath with
  | none =>
    { state := c, returned := Outcome.Returned (some ("topic not found " ++ reqPath))
      clientCalls := [ClientCall.GetTopic reqPath], drains := 0, sent := [] }
  | some topic =>
    if (c.mem topic).Active then
      { state := c, returned := Outcome.Returned (some ("stream already running " ++ reqPath))
        clientCalls := [ClientCall.GetTopic reqPath], drains := 0, sent := [] }
    else
      let r := c.Subscribe subErr topic
      match r.2 with
      | some err =>
        { state := r.1, returned := Outcome.Returned (some err)
          clientCalls := [ClientCall.GetTopic reqPath, ClientCall.Subscribe topic]
          drains := 0, sent := [] }
      | none =>
        if (r.1.mem topic).Interval ≤ 0 then
          { state := r.1.Unsubscribe digest unsubErr topic, returned := Outcome.Panicked
            clientCalls :=
              [ClientCall.GetTopic reqPath, ClientCall.Subscribe topic, ClientCall.Unsubscribe topic]
            drains := 0, sent := [] }
        else
          pumpLoop digest toFrame unsubErr topic events r.1
            [ClientCall.GetTopic reqPath, ClientCall.Subscribe topic] 0 []

/-! ## Sequences of calls on the `Client` interface -/

/-- A call on the `Client` interface, with the answer of the broker where one
may be asked for. -/
inductive Op where
  | StoreTopic (t : Ptr)
  | Subscribe (t : Ptr) (brokerErr : Option Error)
  | Unsubscribe (t : Ptr) (brokerErr : Option Error)
deriving DecidableEq

/-- The state after one call. -/
def step (digest : Digest) (c : client) : Op → client
  | Op.StoreTopic t => c.StoreTopic digest (some t)
  | Op.Subscribe t e => (c.Subscribe e t).1
  | Op.Unsubscribe t e => c.Unsubscribe digest e t

/-- The state after a sequence of calls, each completed before the next. -/
def run (digest : Digest) (c : client) (ops : List Op) : client :=
  ops.foldl (step digest) c

/-- A client with an empty registry and no broker subscription, over the
memory `mem`. -/
def client.init (mem : Mem) : client :=
  { mem := mem, paho := { subscriptions := [], calls := [] }, topics := { entries := [] } }

/-- Every stored topic that is active has a live broker subscription for its
path. -/
def client.ActiveImpliesLive (c : client) : Prop :=
  ∀ e ∈ c.topics.entries, (c.mem e.2).Active = true → (c.mem e.2).Path ∈ c.paho.subscriptions

/-- Every `StoreTopic` of the sequence is given a topic that is inactive when
the call is made. -/
def StoresInactive (digest : Digest) : client → List Op → Bool
  | _, [] => true
  | c, Op.StoreTopic t :: rest =>
    !(c.mem t).Active && StoresInactive digest (step digest c (Op.StoreTopic t)) rest
  | c, op :: rest => StoresInactive digest (step digest c op) rest

/-- The registry is a map built by `Store`: each entry sits under the key of
its topic, and no key occurs twice. -/
def TopicMap.WF (digest : Digest) (tm : TopicMap) (mem : Mem) : Prop :=
  (∀ e ∈ tm.entries, e.1 = (mem e.2).Key digest) ∧ (tm.entries.map Prod.fst).Nodup

/-- A topic object with an empty buffer, inactive, as a request creates it. -/
def Topic.new (path : String) (downsample : Bool) (interval : Int) : Topic :=
  { Path := path, Downsample := downsample, Interval := interval, Messages := [], Active := false }

/-- The topics addressed by `Client.Unsubscribe` calls, in call order. -/
def unsubscribeCalls : List ClientCall → List Ptr
  | [] => []
  | ClientCall.Unsubscribe t :: rest => t :: unsubscribeCalls rest
  | _ :: rest => unsubscribeCalls rest

/-- A memory of topics on the one path `a`, not downsampled, topic `p` with an
interval of `p + 1` seconds. -/
def memByInterval : Mem :=
  fun p => Topic.new "a" false ((p + 1) * 1000000000)

/-- A memory in which every topic is `(false, 1s, "a")`. -/
def memSame : Mem :=
  fun _ => Topic.new "a" false 1000000000

/-- A memory of downsampled topics on the path `..`, topic `p` with an interval
of `p + 1` seconds. -/
def memDotDot : Mem :=
  fun p => Topic.new ".." true ((p + 1) * 1000000000)

/-- A digest that is injective: the key string itself. -/
def plainDigest : Digest := String.mk

/-- A framer that never fails: the frame is the number of messages. -/
def countFrame : List Message → Except Error Nat :=
  fun ms => Except.ok ms.length

/-- Three topics on one path, all stored and subscribed. -/
def threeActive : client :=
  run plainDigest (client.init memByInterval)
    [Op.StoreTopic 0, Op.StoreTopic 1, Op.StoreTopic 2,
     Op.Subscribe 0 none, Op.Subscribe 1 none, Op.Subscribe 2 none]

/-- Two topics on one path, both stored and subscribed. -/
def twoActive : client :=
  run plainDigest (client.init memByInterval)
    [Op.StoreTopic 0, Op.StoreTopic 1, Op.Subscribe 0 none, Op.Subscribe 1 none]

/-- Two topics on one path, both stored, none subscribed. -/
def twoStored : client :=
  run plainDigest (client.init memByInterval) [Op.StoreTopic 0, Op.StoreTopic 1]

/-! ## Basic facts -/

@[simp]
theorem Mem.set_same (mem : Mem) (p : Ptr) (t : Topic) : mem.set p t p = t := by
  simp [Mem.set]

theorem Mem.set_other (mem : Mem) (p q : Ptr) (t : Topic) (h : q ≠ p) :
    mem.set p t q = mem q := by
  simp [Mem.set, h]

theorem setActive_Path (c : client) (t q : Ptr) :
    ((c.setActive t).mem q).Path = (c.mem q).Path := by
  unfold client.setActive Mem.set
  by_cases h : q = t
  · subst h; simp
  · simp [h]

theorem setActive_Active_self (c : client) (t : Ptr) :
    ((c.setActive t).mem t).Active = true := by
  simp [client.setActive]

theorem setActive_Active_of (c : client) (t q : Ptr) (h : (c.mem q).Active = true) :
    ((c.setActive t).mem q).Active = true := by
  unfold client.setActive Mem.set
  by_cases hq : q = t
  · simp [hq]
  · simp [hq, h]

theorem HasSubscription_iff (tm : TopicMap) (mem : Mem) (path : String) :
    tm.HasSubscription mem path = true ↔
      ∃ e ∈ tm.entries, (mem e.2).Active = true ∧ (mem e.2).Path = path := by
  simp [TopicMap.HasSubscription, List.any_eq_true]

theorem HasSubscription_false_iff (tm : TopicMap) (mem : Mem) (path : String) :
    tm.HasSubscription mem path = false ↔
      ∀ e ∈ tm.entries, (mem e.2).Active = true → (mem e.2).Path ≠ path := by
  rw [← Bool.not_eq_true, HasSubscription_iff]
  constructor
  · intro h e he ha hp
    exact h ⟨e, he, ha, hp⟩
  · rintro h ⟨e, he, ha, hp⟩
    exact h e he ha hp

theorem Load_some_mem (tm : TopicMap) (key : String) (p : Ptr)
    (h : tm.Load key = some p) : (key, p) ∈ tm.entries := by
  unfold TopicMap.Load at h
  cases hf : tm.entries.find? (fun e => decide (e.1 = key)) with
  | none => simp [hf] at h
  | some e =>
    simp [hf] at h
    have h1 := List.find?_some hf
    have h2 := List.mem_of_find?_eq_some hf
    simp at h1
    cases e with
    | mk k q =>
      simp at h h1
      subst h; subst h1
      exact h2

theorem Subscribe_existing (c : client) (err : Option Error) (t : Ptr)
    (h : c.topics.HasSubscription c.mem (c.mem t).Path = true) :
    c.Subscribe err t = (c.setActive t, none) := by
  simp [client.Subscribe, h]

theorem Subscribe_fresh_ok (c : client) (t : Ptr)
    (h : c.topics.HasSubscription c.mem (c.mem t).Path = false) :
    c.Subscribe none t =
      (client.setActive { c with paho := c.paho.Subscribe (c.mem t).Path none } t, none) := by
  simp [client.Subscribe, h]

theorem Subscribe_fresh_err (c : client) (e : Error) (t : Ptr)
    (h : c.topics.HasSubscription c.mem (c.mem t).Path = false) :
    c.Subscribe (some e) t =
      ({ c with paho := c.paho.Subscribe (c.mem t).Path (some e) }, some e) := by
  simp [client.Subscribe, h]

/-! ## C1: two topics on one path share one broker subscription -/

/-- C1: when topics `A` and `B` are both stored and have the same path, no
stored topic on that path is active, the broker has no subscription for the
path and accepts subscribe requests, then `Subscribe(A)` followed by
`Subscribe(B)` both return nil, the broker receives exactly one call, a
subscribe for the path, and both `A` and `B` are active afterwards. -/
theorem C1_shared_path_one_broker_subscribe (digest : Digest) (c : client) (A B : Ptr)
    (hA : c.topics.Load ((c.mem A).Key digest) = some A)
    (hB : c.topics.Load ((c.mem B).Key digest) = some B)
    (hPath : (c.mem A).Path = (c.mem B).Path)
    (hNoActive : c.topics.HasSubscription c.mem (c.mem A).Path = false)
    (hNoSub : (c.mem A).Path ∉ c.paho.subscriptions) :
    (c.Subscribe none A).2 = none ∧
    ((c.Subscribe none A).1.Subscribe none B).2 = none ∧
    ((c.Subscribe none A).1.Subscribe none B).1.paho.calls =
      c.paho.calls ++ [BrokerCall.Subscribe (c.mem A).Path] ∧
    (((c.Subscribe none A).1.Subscribe none B).1.mem A).Active = true ∧
    (((c.Subscribe none A).1.Subscribe none B).1.mem B).Active = true ∧
    (c.mem A).Path ∈ ((c.Subscribe none A).1.Subscribe none B).1.paho.subscriptions := by
  have _ := hB
  have _ := hNoSub
  have hmemA := Load_some_mem _ _ _ hA
  rw [Subscribe_fresh_ok c A hNoActive]
  set c1 : client := client.setActive { c with paho := c.paho.Subscribe (c.mem A).Path none } A
    with hc1
  have hc1topics : c1.topics = c.topics := rfl
  have hc1A : (c1.mem A).Active = true := setActive_Active_self _ A
  have hc1PathA : (c1.mem A).Path = (c.mem A).Path := setActive_Path _ A A
  have hc1PathB : (c1.mem B).Path = (c.mem B).Path := setActive_Path _ A B
  have hHas : c1.topics.HasSubscription c1.mem (c1.mem B).Path = true := by
    rw [HasSubscription_iff]
    refine ⟨((c.mem A).Key digest, A), ?_, hc1A, ?_⟩
    · rw [hc1topics]; exact hmemA
    · rw [hc1PathA, hc1PathB, hPath]
  simp only []
  rw [Subscribe_existing c1 none B hHas]
  refine ⟨?_, ?_, ?_, ?_, ?_, ?_⟩
  · trivial
  · trivial
  · simp [hc1, client.setActive, Broker.Subscribe]
  · exact setActive_Active_of c1 B A hc1A
  · exact setActive_Active_self c1 B
  · simp [hc1, client.setActive, Broker.Subscribe]

/-- Witness of C1 on the client holding two stored, inactive topics of path
`a`. -/
theorem C1_shared_path_one_broker_subscribe_witness :
    ((twoStored.Subscribe none 0).1.Subscribe none 1).1.paho.calls =
        twoStored.paho.calls ++ [BrokerCall.Subscribe (twoStored.mem 0).Path] ∧
      (((twoStored.Subscribe none 0).1.Subscribe none 1).1.mem 0).Active = true ∧
      (((twoStored.Subscribe none 0).1.Subscribe none 1).1.mem 1).Active = true :=
  have h := C1_shared_path_one_broker_subscribe plainDigest twoStored 0 1
    (by decide) (by decide) (by decide) (by decide) (by decide)
  ⟨h.2.2.1, h.2.2.2.1, h.2.2.2.2.1⟩

/-! ## C2: the broker subscription is released with the last active topic -/

theorem Delete_entries_mem (tm : TopicMap) (key : String) (e : String × Ptr) :
    e ∈ (tm.Delete key).entries ↔ e ∈ tm.entries ∧ e.1 ≠ key := by
  simp [TopicMap.Delete, List.mem_filter]

theorem Unsubscribe_kept (digest : Digest) (c : client) (err : Option Error) (t : Ptr)
    (h : (c.topics.Delete ((c.mem t).Key digest)).HasSubscription c.mem (c.mem t).Path = true) :
    c.Unsubscribe digest err t =
      { c with topics := c.topics.Delete ((c.mem t).Key digest) } := by
  simp [client.Unsubscribe, h]

theorem Unsubscribe_last (digest : Digest) (c : client) (err : Option Error) (t : Ptr)
    (h : (c.topics.Delete ((c.mem t).Key digest)).HasSubscription c.mem (c.mem t).Path = false) :
    c.Unsubscribe digest err t =
      { c with
        topics := c.topics.Delete ((c.mem t).Key digest)
        paho := c.paho.Unsubscribe (c.mem t).Path err } := by
  simp [client.Unsubscribe, h]

/-- C2, the claim as stated fails: with three topics of one path stored and
active, topics 0 and 1 are stored under distinct keys, share their path and
are both active, yet `Unsubscribe(0)` followed by `Unsubscribe(1)` issues no
broker unsubscribe call, because topic 2 is still active on the path. -/
theorem C2_counterexample_third_active_topic :
    threeActive.topics.Load ((threeActive.mem 0).Key plainDigest) = some 0 ∧
    threeActive.topics.Load ((threeActive.mem 1).Key plainDigest) = some 1 ∧
    (threeActive.mem 0).Key plainDigest ≠ (threeActive.mem 1).Key plainDigest ∧
    (threeActive.mem 0).Path = (threeActive.mem 1).Path ∧
    (threeActive.mem 0).Active = true ∧ (threeActive.mem 1).Active = true ∧
    threeActive.paho.subscriptions = ["a"] ∧
    ((threeActive.Unsubscribe plainDigest none 0).Unsubscribe plainDigest none 1).paho.calls =
      threeActive.paho.calls ∧
    BrokerCall.Unsubscribe "a" ∉
      ((threeActive.Unsubscribe plainDigest none 0).Unsubscribe plainDigest none 1).paho.calls := by
  decide

/-- C2 (amended): when `A` and `B` are stored under distinct keys, share one
path, are both active, the path has a live broker subscription, and every
active stored topic on that path sits under the key of `A` or of `B`, then
`Unsubscribe(A)` makes no broker call and leaves the subscription alive, and a
following `Unsubscribe(B)` makes exactly one broker call, an unsubscribe for
that path. -/
theorem C2_release_last_active_unsubscribes (digest : Digest) (c : client) (A B : Ptr)
    (errA errB : Option Error)
    (hA : c.topics.Load ((c.mem A).Key digest) = some A)
    (hB : c.topics.Load ((c.mem B).Key digest) = some B)
    (hKey : (c.mem A).Key digest ≠ (c.mem B).Key digest)
    (hPath : (c.mem A).Path = (c.mem B).Path)
    (hActA : (c.mem A).Active = true) (hActB : (c.mem B).Active = true)
    (hLive : (c.mem A).Path ∈ c.paho.subscriptions)
    (hOnly : ∀ e ∈ c.topics.entries, (c.mem e.2).Active = true →
      (c.mem e.2).Path = (c.mem A).Path →
      e.1 = (c.mem A).Key digest ∨ e.1 = (c.mem B).Key digest) :
    (c.Unsubscribe digest errA A).paho = c.paho ∧
    (c.mem A).Path ∈ (c.Unsubscribe digest errA A).paho.subscriptions ∧
    ((c.Unsubscribe digest errA A).Unsubscribe digest errB B).paho.calls =
      c.paho.calls ++ [BrokerCall.Unsubscribe (c.mem A).Path] ∧
    (errB = none →
      (c.mem A).Path ∉
        ((c.Unsubscribe digest errA A).Unsubscribe digest errB B).paho.subscriptions) := by
  have _ := hA
  have _ := hActA
  have hmemB := Load_some_mem _ _ _ hB
  have h1 : (c.topics.Delete ((c.mem A).Key digest)).HasSubscription c.mem (c.mem A).Path
      = true := by
    rw [HasSubscription_iff]
    refine ⟨((c.mem B).Key digest, B), ?_, hActB, hPath.symm⟩
    rw [Delete_entries_mem]
    exact ⟨hmemB, fun h => hKey h.symm⟩
  rw [Unsubscribe_kept digest c errA A h1]
  set c1 : client := { c with topics := c.topics.Delete ((c.mem A).Key digest) } with hc1
  have h2 : (c1.topics.Delete ((c1.mem B).Key digest)).HasSubscription c1.mem (c1.mem B).Path
      = false := by
    rw [HasSubscription_false_iff]
    intro e he hact hp
    rw [Delete_entries_mem] at he
    obtain ⟨he1, hne⟩ := he
    have he1' : e ∈ (c.topics.Delete ((c.mem A).Key digest)).entries := he1
    rw [Delete_entries_mem] at he1'
    have hp' : (c.mem e.2).Path = (c.mem A).Path := by
      have : (c.mem e.2).Path = (c.mem B).Path := hp
      rw [this, hPath]
    rcases hOnly e he1'.1 hact hp' with h | h
    · exact he1'.2 h
    · exact hne h
  rw [Unsubscribe_last digest c1 errB B h2]
  refine ⟨rfl, hLive, ?_, ?_⟩
  · simp [hc1, Broker.Unsubscribe, hPath]
  · intro he
    subst he
    simp [hc1, Broker.Unsubscribe, hPath]

/-- Witness of C2 (amended) on the client holding exactly two stored, active
topics of path `a`. -/
theorem C2_release_last_active_unsubscribes_witness :
    (twoActive.Unsubscribe plainDigest none 0).paho = twoActive.paho ∧
    ((twoActive.Unsubscribe plainDigest none 0).Unsubscribe plainDigest none 1).paho.calls =
      twoActive.paho.calls ++ [BrokerCall.Unsubscribe (twoActive.mem 0).Path] :=
  have h := C2_release_last_active_unsubscribes plainDigest twoActive 0 1 none none
    (by decide) (by decide) (by decide) (by decide) (by decide) (by decide) (by decide)
    (by decide)
  ⟨h.1, h.2.2.1⟩

/-! ## C3: the key of a topic -/

/-- C3, at the failing input: on the path `..` the downsampled topics with
intervals of one and of two seconds hash the same string, `true`, because
`path.Join` cleans the joined string and the `..` element cancels the interval;
they have the same key under every digest, and storing both leaves one entry. -/
theorem C3_dotdot_path_keys_collide :
    (Topic.new ".." true 1000000000).KeyInput = "true".toList ∧
    (Topic.new ".." true 2000000000).KeyInput = "true".toList ∧
    (∀ digest : Digest,
      (Topic.new ".." true 1000000000).Key digest = (Topic.new ".." true 2000000000).Key digest) ∧
    (run plainDigest (client.init memDotDot) [Op.StoreTopic 0, Op.StoreTopic 1]).topics.entries =
      [("true", 0)] := by
  have h1 : (Topic.new ".." true 1000000000).KeyInput = "true".toList := by decide
  have h2 : (Topic.new ".." true 2000000000).KeyInput = "true".toList := by decide
  refine ⟨h1, h2, ?_, by decide⟩
  intro digest
  unfold Topic.Key
  rw [h1, h2]

/-! ## C4: `Store` inserts only when the key is absent -/

theorem Load_eq_none_iff (tm : TopicMap) (key : String) :
    tm.Load key = none ↔ ∀ e ∈ tm.entries, e.1 ≠ key := by
  simp [TopicMap.Load, List.find?_eq_none]

theorem Store_present (digest : Digest) (tm : TopicMap) (mem : Mem) (t t0 : Ptr)
    (h : tm.Load ((mem t).Key digest) = some t0) : tm.Store digest mem t = tm := by
  simp [TopicMap.Store, h]

theorem Store_absent (digest : Digest) (tm : TopicMap) (mem : Mem) (t : Ptr)
    (h : tm.Load ((mem t).Key digest) = none) :
    tm.Store digest mem t = { entries := tm.entries ++ [((mem t).Key digest, t)] } := by
  simp [TopicMap.Store, h]

theorem Load_append_absent (tm : TopicMap) (key : String) (t : Ptr)
    (h : tm.Load key = none) :
    TopicMap.Load { entries := tm.entries ++ [(key, t)] } key = some t := by
  unfold TopicMap.Load at h ⊢
  simp only [Option.map_eq_none'] at h
  simp [List.find?_append, h]

theorem Load_Store_self (digest : Digest) (tm : TopicMap) (mem : Mem) (t : Ptr)
    (h : tm.Load ((mem t).Key digest) = none) :
    (tm.Store digest mem t).Load ((mem t).Key digest) = some t := by
  rw [Store_absent digest tm mem t h]
  exact Load_append_absent tm _ t h

theorem Store_keys_nodup (digest : Digest) (tm : TopicMap) (mem : Mem) (t : Ptr)
    (h : (tm.entries.map Prod.fst).Nodup) :
    ((tm.Store digest mem t).entries.map Prod.fst).Nodup := by
  cases hl : tm.Load ((mem t).Key digest) with
  | some t0 => rw [Store_present digest tm mem t t0 hl]; exact h
  | none =>
    rw [Store_absent digest tm mem t hl]
    rw [Load_eq_none_iff] at hl
    simp only [List.map_append, List.map_cons, List.map_nil]
    rw [List.nodup_append]
    refine ⟨h, List.nodup_singleton _, ?_⟩
    intro k hk hk2
    simp only [List.mem_singleton] at hk2
    rw [List.mem_map] at hk
    obtain ⟨e, he, hek⟩ := hk
    exact hl e he (hek.trans hk2)

theorem Key_congr (digest : Digest) (a b : Topic) (hP : a.Path = b.Path)
    (hD : a.Downsample = b.Downsample) (hI : a.Interval = b.Interval) :
    a.Key digest = b.Key digest := by
  simp [Topic.Key, Topic.KeyInput, hP, hD, hI]

/-- C4, the claim as stated fails: in a registry that already holds topic 0
under the key of `(false, 1s, "a")`, storing topic 1 and then topic 2, both with
that same triple, leaves `Load` of the key returning topic 0, not topic 1. -/
theorem C4_counterexample_key_already_taken :
    (memSame 1).Path = (memSame 2).Path ∧
    (memSame 1).Downsample = (memSame 2).Downsample ∧
    (memSame 1).Interval = (memSame 2).Interval ∧
    (run plainDigest (run plainDigest (client.init memSame) [Op.StoreTopic 0])
        [Op.StoreTopic 1, Op.StoreTopic 2]).topics.Load ((memSame 1).Key plainDigest) = some 0 ∧
    (run plainDigest (run plainDigest (client.init memSame) [Op.StoreTopic 0])
        [Op.StoreTopic 1, Op.StoreTopic 2]).topics.Load ((memSame 1).Key plainDigest) ≠ some 1 := by
  decide

/-- C4 (amended): for topics `t1` and `t2` with the same `(downsample,
interval, path)`, hence the same key, `Store(t1)` followed by `Store(t2)`
leaves the client exactly as it was after `Store(t1)`, memory included; `Load`
of the key then returns `t1` when the key was free before `Store(t1)` and the
entry stored earlier otherwise; and a registry with at most one entry per key
stays so. -/
theorem C4_Store_insert_if_absent (digest : Digest) (c : client) (t1 t2 : Ptr)
    (hP : (c.mem t1).Path = (c.mem t2).Path)
    (hD : (c.mem t1).Downsample = (c.mem t2).Downsample)
    (hI : (c.mem t1).Interval = (c.mem t2).Interval) :
    (c.mem t1).Key digest = (c.mem t2).Key digest ∧
    (c.StoreTopic digest (some t1)).StoreTopic digest (some t2) = c.StoreTopic digest (some t1) ∧
    ((c.StoreTopic digest (some t1)).StoreTopic digest (some t2)).mem = c.mem ∧
    (c.topics.Load ((c.mem t1).Key digest) = none →
      ((c.StoreTopic digest (some t1)).StoreTopic digest (some t2)).topics.Load
        ((c.mem t1).Key digest) = some t1) ∧
    (∀ t0, c.topics.Load ((c.mem t1).Key digest) = some t0 →
      ((c.StoreTopic digest (some t1)).StoreTopic digest (some t2)).topics.Load
        ((c.mem t1).Key digest) = some t0) ∧
    ((c.topics.entries.map Prod.fst).Nodup →
      (((c.StoreTopic digest (some t1)).StoreTopic digest (some t2)).topics.entries.map
        Prod.fst).Nodup) := by
  have hK : (c.mem t1).Key digest = (c.mem t2).Key digest := Key_congr digest _ _ hP hD hI
  have hLoad1 : ∃ t0, (c.topics.Store digest c.mem t1).Load ((c.mem t2).Key digest) = some t0 := by
    rw [← hK]
    cases hl : c.topics.Load ((c.mem t1).Key digest) with
    | some t0 => exact ⟨t0, by rw [Store_present digest _ _ t1 t0 hl]; exact hl⟩
    | none => exact ⟨t1, Load_Store_self digest _ _ t1 hl⟩
  obtain ⟨t0, ht0⟩ := hLoad1
  have hSame : (c.StoreTopic digest (some t1)).StoreTopic digest (some t2)
      = c.StoreTopic digest (some t1) := by
    simp only [client.StoreTopic]
    rw [Store_present digest _ _ t2 t0 ht0]
  rw [hSame]
  refine ⟨hK, rfl, rfl, ?_, ?_, ?_⟩
  · intro hnone
    exact Load_Store_self digest _ _ t1 hnone
  · intro t hsome
    simp only [client.StoreTopic]
    rw [Store_present digest _ _ t1 t hsome]
    exact hsome
  · intro hnd
    exact Store_keys_nodup digest _ _ t1 hnd

/-- Witness of C4 (amended): topics 1 and 2 of `memSame` stored into the empty
registry. -/
theorem C4_Store_insert_if_absent_witness :
    ((client.init memSame).StoreTopic plainDigest (some 1)).StoreTopic plainDigest (some 2) =
      (client.init memSame).StoreTopic plainDigest (some 1) :=
  (C4_Store_insert_if_absent plainDigest (client.init memSame) 1 2
    (by decide) (by decide) (by decide)).2.1

/-! ## C5: draining a topic buffer -/

theorem foldl_AddMessage (ms : List Message) (t : Topic) :
    ms.foldl Topic.AddMessage t = { t with Messages := t.Messages ++ ms } := by
  induction ms generalizing t with
  | nil => simp
  | cons m rest ih =>
    rw [List.foldl_cons, ih]
    simp [Topic.AddMessage]

theorem drop_length_pred (ms : List Message) :
    ms.drop (ms.length - 1) = ms.getLast?.toList := by
  induction ms with
  | nil => rfl
  | cons m rest ih =>
    cases rest with
    | nil => rfl
    | cons m2 rest2 =>
      have h : (m :: m2 :: rest2).length - 1 = (m2 :: rest2).length - 1 + 1 := by simp
      rw [h, List.drop_succ_cons, ih, List.getLast?_cons_cons]

theorem ToDataFrame_fst {R : Type} (toFrame : List Message → R) (t : Topic) :
    (t.ToDataFrame toFrame).1 = { t with Messages := [] } := by
  unfold Topic.ToDataFrame
  by_cases h : t.Downsample = true ∧ t.Messages.length > 0
  · simp only [h, and_self, if_true]
  · simp only [h, if_false]

/-- C5: for a topic whose buffer received the messages `ms`, in that order,
since its last drain, `ToDataFrame` gives the framer exactly `ms` when the
topic is not downsampled and exactly the last message of `ms` (nothing when
`ms` is empty) when it is; the buffer is empty afterwards. -/
theorem C5_drain_hands_batch {R : Type} (toFrame : List Message → R) (t : Topic)
    (ms : List Message) :
    (ms.foldl Topic.AddMessage (t.ToDataFrame toFrame).1).Messages = ms ∧
    ((ms.foldl Topic.AddMessage (t.ToDataFrame toFrame).1).ToDataFrame toFrame).2 =
      toFrame (if t.Downsample = true then ms.getLast?.toList else ms) ∧
    ((ms.foldl Topic.AddMessage (t.ToDataFrame toFrame).1).ToDataFrame toFrame).1.Messages = [] := by
  rw [ToDataFrame_fst, foldl_AddMessage]
  refine ⟨by simp, ?_, by rw [ToDataFrame_fst]⟩
  unfold Topic.ToDataFrame
  cases hd : t.Downsample with
  | false => simp
  | true =>
    cases ms with
    | nil => simp
    | cons m rest =>
      simp only [List.nil_append, List.length_cons, gt_iff_lt, Nat.zero_lt_succ, and_self,
        if_true]
      rw [← drop_length_pred]
      simp

/-! ## C6: dispatching a message to every topic of a path -/

theorem WF_init (digest : Digest) (mem : Mem) : (client.init mem).topics.WF digest mem := by
  simp [TopicMap.WF, client.init]

theorem WF_Store (digest : Digest) (tm : TopicMap) (mem : Mem) (t : Ptr)
    (h : tm.WF digest mem) : (tm.Store digest mem t).WF digest mem := by
  refine ⟨?_, Store_keys_nodup digest tm mem t h.2⟩
  cases hl : tm.Load ((mem t).Key digest) with
  | some t0 => rw [Store_present digest tm mem t t0 hl]; exact h.1
  | none =>
    rw [Store_absent digest tm mem t hl]
    intro e he
    simp only [List.mem_append, List.mem_singleton] at he
    rcases he with he | he
    · exact h.1 e he
    · subst he; rfl

theorem WF_Delete (digest : Digest) (tm : TopicMap) (mem : Mem) (key : String)
    (h : tm.WF digest mem) : (tm.Delete key).WF digest mem := by
  refine ⟨?_, ?_⟩
  · intro e he
    rw [Delete_entries_mem] at he
    exact h.1 e he.1
  · unfold TopicMap.Delete
    exact List.Nodup.sublist (List.Sublist.map _ (List.filter_sublist _)) h.2

theorem WF_ptrs_nodup (digest : Digest) (tm : TopicMap) (mem : Mem) (h : tm.WF digest mem) :
    (tm.entries.map Prod.snd).Nodup := by
  have hmap : tm.entries.map Prod.fst
      = (tm.entries.map Prod.snd).map (fun p => (mem p).Key digest) := by
    rw [List.map_map]
    apply List.map_congr_left
    intro e he
    exact h.1 e he
  have h2 := h.2
  rw [hmap] at h2
  exact List.Nodup.of_map _ h2

theorem WF_congr (digest : Digest) (tm : TopicMap) (mem mem1 : Mem)
    (hKey : ∀ q, (mem1 q).Key digest = (mem q).Key digest) (h : tm.WF digest mem) :
    tm.WF digest mem1 := by
  refine ⟨?_, h.2⟩
  intro e he
  rw [hKey]
  exact h.1 e he

theorem setActive_Key (digest : Digest) (c : client) (t q : Ptr) :
    ((c.setActive t).mem q).Key digest = (c.mem q).Key digest := by
  unfold client.setActive Mem.set
  by_cases h : q = t
  · subst h; simp [Topic.Key, Topic.KeyInput]
  · simp [h]

theorem Subscribe_Key (digest : Digest) (c : client) (err : Option Error) (t q : Ptr) :
    ((c.Subscribe err t).1.mem q).Key digest = (c.mem q).Key digest ∧
    (c.Subscribe err t).1.topics = c.topics := by
  cases hh : c.topics.HasSubscription c.mem (c.mem t).Path with
  | true => rw [Subscribe_existing c err t hh]; exact ⟨setActive_Key digest c t q, rfl⟩
  | false =>
    cases err with
    | some e => rw [Subscribe_fresh_err c e t hh]; exact ⟨rfl, rfl⟩
    | none => rw [Subscribe_fresh_ok c t hh]; exact ⟨setActive_Key digest _ t q, rfl⟩

theorem WF_step (digest : Digest) (c : client) (op : Op) (h : c.topics.WF digest c.mem) :
    (step digest c op).topics.WF digest (step digest c op).mem := by
  cases op with
  | StoreTopic t => exact WF_Store digest c.topics c.mem t h
  | Subscribe t e =>
    show (c.Subscribe e t).1.topics.WF digest (c.Subscribe e t).1.mem
    rw [(Subscribe_Key digest c e t t).2]
    exact WF_congr digest _ _ _ (fun q => (Subscribe_Key digest c e t q).1) h
  | Unsubscribe t e =>
    show (c.Unsubscribe digest e t).topics.WF digest (c.Unsubscribe digest e t).mem
    cases hh : (c.topics.Delete ((c.mem t).Key digest)).HasSubscription c.mem (c.mem t).Path with
    | true =>
      rw [Unsubscribe_kept digest c e t hh]
      exact WF_Delete digest c.topics c.mem _ h
    | false =>
      rw [Unsubscribe_last digest c e t hh]
      exact WF_Delete digest c.topics c.mem _ h

theorem WF_run (digest : Digest) (ops : List Op) (c : client) (h : c.topics.WF digest c.mem) :
    (run digest c ops).topics.WF digest (run digest c ops).mem := by
  induction ops generalizing c with
  | nil => exact h
  | cons op rest ih => exact ih _ (WF_step digest c op h)

theorem AddMessage_foldl_spec (path : String) (message : Message) (l : List (String × Ptr))
    (mem : Mem) (hnd : (l.map Prod.snd).Nodup) (q : Ptr) :
    l.foldl (fun m e => if (m e.2).Path = path then m.set e.2 ((m e.2).AddMessage message) else m)
        mem q =
      if q ∈ l.map Prod.snd ∧ (mem q).Path = path then (mem q).AddMessage message else mem q := by
  induction l generalizing mem with
  | nil => simp
  | cons e rest ih =>
    simp only [List.map_cons, List.nodup_cons] at hnd
    rw [List.foldl_cons, ih _ hnd.2]
    by_cases hp : (mem e.2).Path = path
    · rw [if_pos hp]
      by_cases hq : q = e.2
      · subst hq
        simp [hnd.1, hp]
      · rw [Mem.set_other _ _ _ _ hq]
        have hiff : (q ∈ List.map Prod.snd (e :: rest) ∧ (mem q).Path = path) ↔
            (q ∈ List.map Prod.snd rest ∧ (mem q).Path = path) := by
          simp [hq]
        by_cases h1 : q ∈ List.map Prod.snd rest ∧ (mem q).Path = path
        · rw [if_pos h1, if_pos (hiff.mpr h1)]
        · rw [if_neg h1, if_neg (fun h => h1 (hiff.mp h))]
    · rw [if_neg hp]
      by_cases hq : q = e.2
      · subst hq
        simp [hnd.1, hp]
      · have hiff : (q ∈ List.map Prod.snd (e :: rest) ∧ (mem q).Path = path) ↔
            (q ∈ List.map Prod.snd rest ∧ (mem q).Path = path) := by
          simp [hq]
        by_cases h1 : q ∈ List.map Prod.snd rest ∧ (mem q).Path = path
        · rw [if_pos h1, if_pos (hiff.mpr h1)]
        · rw [if_neg h1, if_neg (fun h => h1 (hiff.mp h))]

theorem AddMessage_spec (digest : Digest) (tm : TopicMap) (mem : Mem) (path : String)
    (message : Message) (h : tm.WF digest mem) (q : Ptr) :
    tm.AddMessage mem path message q =
      if q ∈ tm.entries.map Prod.snd ∧ (mem q).Path = path then (mem q).AddMessage message
      else mem q :=
  AddMessage_foldl_spec path message tm.entries mem (WF_ptrs_nodup digest tm mem h) q

/-- C6: in a registry built by `Store` (each entry under the key of its topic,
no key twice), `TopicMap.AddMessage(p, m)` appends `m` at the end of the buffer
of every stored topic whose path is `p`, whatever its downsample flag and
interval, and leaves every topic with another path, every topic that is not
stored, every `Active` flag, the registry entries and the broker unchanged. -/
theorem C6_AddMessage_dispatch (digest : Digest) (c : client) (now : Int) (p : String)
    (payload : List Nat) (hWF : c.topics.WF digest c.mem) :
    (c.HandleMessage now p payload).mem =
      c.topics.AddMessage c.mem p { Timestamp := now, Value := payload } ∧
    (∀ e ∈ c.topics.entries, (c.mem e.2).Path = p →
      (c.topics.AddMessage c.mem p { Timestamp := now, Value := payload } e.2).Messages =
        (c.mem e.2).Messages ++ [{ Timestamp := now, Value := payload }]) ∧
    (∀ q, (c.mem q).Path ≠ p →
      c.topics.AddMessage c.mem p { Timestamp := now, Value := payload } q = c.mem q) ∧
    (∀ q, q ∉ c.topics.entries.map Prod.snd →
      c.topics.AddMessage c.mem p { Timestamp := now, Value := payload } q = c.mem q) ∧
    (∀ q, (c.topics.AddMessage c.mem p { Timestamp := now, Value := payload } q).Active =
        (c.mem q).Active ∧
      (c.topics.AddMessage c.mem p { Timestamp := now, Value := payload } q).Path =
        (c.mem q).Path ∧
      (c.topics.AddMessage c.mem p { Timestamp := now, Value := payload } q).Downsample =
        (c.mem q).Downsample ∧
      (c.topics.AddMessage c.mem p { Timestamp := now, Value := payload } q).Interval =
        (c.mem q).Interval) ∧
    (c.HandleMessage now p payload).topics = c.topics ∧
    (c.HandleMessage now p payload).paho = c.paho := by
  refine ⟨rfl, ?_, ?_, ?_, ?_, rfl, rfl⟩
  · intro e he hp
    rw [AddMessage_spec digest _ _ _ _ hWF]
    have hmem : e.2 ∈ c.topics.entries.map Prod.snd := List.mem_map_of_mem _ he
    simp [hmem, hp, Topic.AddMessage]
  · intro q hq
    rw [AddMessage_spec digest _ _ _ _ hWF]
    simp [hq]
  · intro q hq
    rw [AddMessage_spec digest _ _ _ _ hWF]
    simp [hq]
  · intro q
    rw [AddMessage_spec digest _ _ _ _ hWF]
    by_cases hc : q ∈ c.topics.entries.map Prod.snd ∧ (c.mem q).Path = p
    · simp [hc, Topic.AddMessage]
    · simp only [hc, if_false, and_self]

/-- Witness of C6 on the client holding two stored topics of path `a`: a
message for `a` lands at the end of the buffer of the first. -/
theorem C6_AddMessage_dispatch_witness :
    (twoStored.topics.AddMessage twoStored.mem "a" { Timestamp := 5, Value := [1] } 0).Messages =
      (twoStored.mem 0).Messages ++ [{ Timestamp := 5, Value := [1] }] :=
  (C6_AddMessage_dispatch plainDigest twoStored 5 "a" [1]
    (WF_run plainDigest _ _ (WF_init plainDigest memByInterval))).2.1
    ((memByInterval 0).Key plainDigest, 0) (by decide) (by decide)

/-! ## C7: an active stored topic has a live broker subscription -/

theorem ActiveImpliesLive_init (mem : Mem) : (client.init mem).ActiveImpliesLive := by
  intro e he
  simp [client.init] at he

theorem ActiveImpliesLive_StoreTopic (digest : Digest) (c : client) (t : Ptr)
    (hInv : c.ActiveImpliesLive) (hInactive : (c.mem t).Active = false) :
    (c.StoreTopic digest (some t)).ActiveImpliesLive := by
  intro e he hact
  simp only [client.StoreTopic] at he hact ⊢
  cases hl : c.topics.Load ((c.mem t).Key digest) with
  | some t0 =>
    rw [Store_present digest _ _ t t0 hl] at he
    exact hInv e he hact
  | none =>
    rw [Store_absent digest _ _ t hl] at he
    simp only [List.mem_append, List.mem_singleton] at he
    rcases he with he | he
    · exact hInv e he hact
    · subst he
      rw [hInactive] at hact
      exact absurd hact (by decide)

theorem ActiveImpliesLive_setActive (c : client) (t : Ptr) (hInv : c.ActiveImpliesLive)
    (hLive : (c.mem t).Path ∈ c.paho.subscriptions) : (c.setActive t).ActiveImpliesLive := by
  intro e he hact
  rw [setActive_Path]
  by_cases hq : e.2 = t
  · rw [hq]; exact hLive
  · have hsame : (c.setActive t).mem e.2 = c.mem e.2 := Mem.set_other _ _ _ _ hq
    rw [hsame] at hact
    exact hInv e he hact

theorem ActiveImpliesLive_Subscribe (c : client) (err : Option Error) (t : Ptr)
    (hInv : c.ActiveImpliesLive) : (c.Subscribe err t).1.ActiveImpliesLive := by
  cases hh : c.topics.HasSubscription c.mem (c.mem t).Path with
  | true =>
    rw [Subscribe_existing c err t hh]
    rw [HasSubscription_iff] at hh
    obtain ⟨e0, he0, hact0, hp0⟩ := hh
    apply ActiveImpliesLive_setActive c t hInv
    rw [← hp0]
    exact hInv e0 he0 hact0
  | false =>
    cases err with
    | some e =>
      rw [Subscribe_fresh_err c e t hh]
      intro x hx hact
      have h := hInv x hx hact
      simpa [Broker.Subscribe] using h
    | none =>
      rw [Subscribe_fresh_ok c t hh]
      apply ActiveImpliesLive_setActive
      · intro x hx hact
        have h := hInv x hx hact
        simp only [Broker.Subscribe, if_true, List.mem_cons]
        exact Or.inr h
      · simp [Broker.Subscribe]

theorem ActiveImpliesLive_Unsubscribe (digest : Digest) (c : client) (err : Option Error)
    (t : Ptr) (hInv : c.ActiveImpliesLive) : (c.Unsubscribe digest err t).ActiveImpliesLive := by
  cases hh : (c.topics.Delete ((c.mem t).Key digest)).HasSubscription c.mem (c.mem t).Path with
  | true =>
    rw [Unsubscribe_kept digest c err t hh]
    intro e he hact
    have he' : e ∈ (c.topics.Delete ((c.mem t).Key digest)).entries := he
    rw [Delete_entries_mem] at he'
    exact hInv e he'.1 hact
  | false =>
    rw [Unsubscribe_last digest c err t hh]
    rw [HasSubscription_false_iff] at hh
    intro e he hact
    have he' : e ∈ (c.topics.Delete ((c.mem t).Key digest)).entries := he
    have hne : (c.mem e.2).Path ≠ (c.mem t).Path := hh e he' hact
    rw [Delete_entries_mem] at he'
    have hlive : (c.mem e.2).Path ∈ c.paho.subscriptions := hInv e he'.1 hact
    show (c.mem e.2).Path ∈ (c.paho.Unsubscribe (c.mem t).Path err).subscriptions
    unfold Broker.Unsubscribe
    by_cases herr : err = none
    · simp only [herr, if_true, List.mem_filter, decide_eq_true_eq]
      exact ⟨hlive, hne⟩
    · simp only [herr, if_false]
      exact hlive

/-- C7, the claim as stated fails: a topic created inactive is stored,
subscribed, unsubscribed and stored again; `Unsubscribe` does not clear its
`Active` flag, so the registry then holds it with `Active = true` while the
broker has no subscription at all. -/
theorem C7_counterexample_restored_topic :
    (memSame 0).Active = false ∧
    (run plainDigest (client.init memSame)
      [Op.StoreTopic 0, Op.Subscribe 0 none, Op.Unsubscribe 0 none, Op.StoreTopic 0]).topics.entries
        = [("false/1s/a", 0)] ∧
    ((run plainDigest (client.init memSame)
      [Op.StoreTopic 0, Op.Subscribe 0 none, Op.Unsubscribe 0 none, Op.StoreTopic 0]).mem 0).Active
        = true ∧
    (run plainDigest (client.init memSame)
      [Op.StoreTopic 0, Op.Subscribe 0 none, Op.Unsubscribe 0 none, Op.StoreTopic 0]).paho.subscriptions
        = [] := by
  decide

theorem ActiveImpliesLive_run (digest : Digest) (ops : List Op) (c : client)
    (hInv : c.ActiveImpliesLive) (hOps : StoresInactive digest c ops = true) :
    (run digest c ops).ActiveImpliesLive := by
  induction ops generalizing c with
  | nil => exact hInv
  | cons op rest ih =>
    show (run digest (step digest c op) rest).ActiveImpliesLive
    cases op with
    | StoreTopic t =>
      simp only [StoresInactive, Bool.and_eq_true, Bool.not_eq_true'] at hOps
      exact ih _ (ActiveImpliesLive_StoreTopic digest c t hInv hOps.1) hOps.2
    | Subscribe t e =>
      simp only [StoresInactive] at hOps
      exact ih _ (ActiveImpliesLive_Subscribe c e t hInv) hOps
    | Unsubscribe t e =>
      simp only [StoresInactive] at hOps
      exact ih _ (ActiveImpliesLive_Unsubscribe digest c e t hInv) hOps

/-- C7 (amended): in every state reached from an empty registry with no broker
subscription by a sequence of `StoreTopic`, `Subscribe` and `Unsubscribe` calls
in which each `StoreTopic` is given a topic that is inactive at the time of the
call, every stored topic with `Active = true` has a live broker subscription
for its path, whatever the broker answers. -/
theorem C7_active_implies_live (digest : Digest) (mem : Mem) (ops : List Op)
    (hOps : StoresInactive digest (client.init mem) ops = true) :
    ∀ e ∈ (run digest (client.init mem) ops).topics.entries,
      ((run digest (client.init mem) ops).mem e.2).Active = true →
      ((run digest (client.init mem) ops).mem e.2).Path ∈
        (run digest (client.init mem) ops).paho.subscriptions :=
  ActiveImpliesLive_run digest ops (client.init mem) (ActiveImpliesLive_init mem) hOps

/-- Witness of C7 (amended): two topics of one path stored, both subscribed,
the first released; the second is stored, active, and its path is live. -/
theorem C7_active_implies_live_witness :
    (1 : Ptr) ∈ (run plainDigest (client.init memByInterval)
        [Op.StoreTopic 0, Op.StoreTopic 1, Op.Subscribe 0 none, Op.Subscribe 1 none,
         Op.Unsubscribe 0 none]).topics.entries.map Prod.snd ∧
      "a" ∈ (run plainDigest (client.init memByInterval)
        [Op.StoreTopic 0, Op.StoreTopic 1, Op.Subscribe 0 none, Op.Subscribe 1 none,
         Op.Unsubscribe 0 none]).paho.subscriptions :=
  ⟨by decide,
   C7_active_implies_live plainDigest memByInterval
    [Op.StoreTopic 0, Op.StoreTopic 1, Op.Subscribe 0 none, Op.Subscribe 1 none,
     Op.Unsubscribe 0 none]
    (by decide) ("false/2s/a", 1) (by decide) (by decide)⟩

/-! ## C8, C9, C10: the exits of `RunStream` -/

theorem pumpLoop_spec {Frame : Type} (digest : Digest)
    (toFrame : List Message → Except Error Frame) (unsubErr : Option Error) (topic : Ptr)
    (events : List StreamEvent) (c : client) (calls : List ClientCall) (drains : Nat)
    (sent : List Frame) :
    ((pumpLoop digest toFrame unsubErr topic events c calls drains sent).returned
        = Outcome.Waiting ∧
      (pumpLoop digest toFrame unsubErr topic events c calls drains sent).clientCalls = calls) ∨
    ((pumpLoop digest toFrame unsubErr topic events c calls drains sent).returned
        = Outcome.Returned none ∧
      (pumpLoop digest toFrame unsubErr topic events c calls drains sent).clientCalls
        = calls ++ [ClientCall.Unsubscribe topic]) := by
  induction events generalizing c drains sent with
  | nil => exact Or.inl ⟨rfl, rfl⟩
  | cons ev rest ih =>
    cases ev with
    | Done => exact Or.inr ⟨rfl, rfl⟩
    | Tick sendErr =>
      unfold pumpLoop
      simp only []
      split
      · exact ih _ _ _
      · exact ih _ _ _

theorem pumpLoop_cancel {Frame : Type} (digest : Digest)
    (toFrame : List Message → Except Error Frame) (unsubErr : Option Error) (topic : Ptr)
    (ticks rest : List StreamEvent) (hTicks : StreamEvent.Done ∉ ticks)
    (c : client) (calls : List ClientCall) (drains : Nat) (sent : List Frame) :
    (pumpLoop digest toFrame unsubErr topic (ticks ++ StreamEvent.Done :: rest) c calls drains
        sent).returned = Outcome.Returned none ∧
    (pumpLoop digest toFrame unsubErr topic (ticks ++ StreamEvent.Done :: rest) c calls drains
        sent).clientCalls = calls ++ [ClientCall.Unsubscribe topic] ∧
    (pumpLoop digest toFrame unsubErr topic (ticks ++ StreamEvent.Done :: rest) c calls drains
        sent).drains = drains + ticks.length := by
  induction ticks generalizing c drains sent with
  | nil => exact ⟨rfl, rfl, rfl⟩
  | cons ev more ih =>
    have hmore : StreamEvent.Done ∉ more := fun h => hTicks (List.mem_cons_of_mem _ h)
    cases ev with
    | Done => exact absurd (List.mem_cons_self _ _) hTicks
    | Tick sendErr =>
      simp only [List.cons_append, List.length_cons]
      unfold pumpLoop
      simp only []
      split
      · have h := ih hmore { c with mem := c.mem.set topic ((c.mem topic).ToDataFrame toFrame).1 }
          (drains + 1) sent
        refine ⟨h.1, h.2.1, ?_⟩
        rw [h.2.2]; omega
      · rename_i frame _
        have h := ih hmore { c with mem := c.mem.set topic ((c.mem topic).ToDataFrame toFrame).1 }
          (drains + 1) (sent ++ [frame])
        refine ⟨h.1, h.2.1, ?_⟩
        rw [h.2.2]; omega

theorem RunStream_notFound {Frame : Type} (digest : Digest)
    (toFrame : List Message → Except Error Frame) (subErr unsubErr : Option Error) (c : client)
    (reqPath : String) (events : List StreamEvent) (hGet : c.GetTopic reqPath = none) :
    RunStream digest toFrame subErr unsubErr c reqPath events =
      { state := c, returned := Outcome.Returned (some ("topic not found " ++ reqPath))
        clientCalls := [ClientCall.GetTopic reqPath], drains := 0, sent := [] } := by
  simp [RunStream, hGet]

theorem RunStream_active {Frame : Type} (digest : Digest)
    (toFrame : List Message → Except Error Frame) (subErr unsubErr : Option Error) (c : client)
    (reqPath : String) (events : List StreamEvent) (t : Ptr) (hGet : c.GetTopic reqPath = some t)
    (hAct : (c.mem t).Active = true) :
    RunStream digest toFrame subErr unsubErr c reqPath events =
      { state := c, returned := Outcome.Returned (some ("stream already running " ++ reqPath))
        clientCalls := [ClientCall.GetTopic reqPath], drains := 0, sent := [] } := by
  simp [RunStream, hGet, hAct]

theorem RunStream_subscribeError {Frame : Type} (digest : Digest)
    (toFrame : List Message → Except Error Frame) (subErr unsubErr : Option Error) (c : client)
    (reqPath : String) (events : List StreamEvent) (t : Ptr) (err : Error)
    (hGet : c.GetTopic reqPath = some t) (hAct : (c.mem t).Active = false)
    (hSub : (c.Subscribe subErr t).2 = some err) :
    RunStream digest toFrame subErr unsubErr c reqPath events =
      { state := (c.Subscribe subErr t).1, returned := Outcome.Returned (some err)
        clientCalls := [ClientCall.GetTopic reqPath, ClientCall.Subscribe t]
        drains := 0, sent := [] } := by
  simp [RunStream, hGet, hAct, hSub]

theorem RunStream_panic {Frame : Type} (digest : Digest)
    (toFrame : List Message → Except Error Frame) (subErr unsubErr : Option Error) (c : client)
    (reqPath : String) (events : List StreamEvent) (t : Ptr)
    (hGet : c.GetTopic reqPath = some t) (hAct : (c.mem t).Active = false)
    (hSub : (c.Subscribe subErr t).2 = none)
    (hInt : ((c.Subscribe subErr t).1.mem t).Interval ≤ 0) :
    RunStream digest toFrame subErr unsubErr c reqPath events =
      { state := (c.Subscribe subErr t).1.Unsubscribe digest unsubErr t
        returned := Outcome.Panicked
        clientCalls :=
          [ClientCall.GetTopic reqPath, ClientCall.Subscribe t, ClientCall.Unsubscribe t]
        drains := 0, sent := [] } := by
  simp [RunStream, hGet, hAct, hSub, hInt]

theorem RunStream_pump {Frame : Type} (digest : Digest)
    (toFrame : List Message → Except Error Frame) (subErr unsubErr : Option Error) (c : client)
    (reqPath : String) (events : List StreamEvent) (t : Ptr)
    (hGet : c.GetTopic reqPath = some t) (hAct : (c.mem t).Active = false)
    (hSub : (c.Subscribe subErr t).2 = none)
    (hInt : ¬ ((c.Subscribe subErr t).1.mem t).Interval ≤ 0) :
    RunStream digest toFrame subErr unsubErr c reqPath events =
      pumpLoop digest toFrame unsubErr t events (c.Subscribe subErr t).1
        [ClientCall.GetTopic reqPath, ClientCall.Subscribe t] 0 [] := by
  simp [RunStream, hGet, hAct, hSub, hInt]

theorem Subscribe_Interval (c : client) (err : Option Error) (t q : Ptr) :
    ((c.Subscribe err t).1.mem q).Interval = (c.mem q).Interval := by
  have hset : ∀ c0 : client, ((c0.setActive t).mem q).Interval = (c0.mem q).Interval := by
    intro c0
    unfold client.setActive Mem.set
    by_cases h : q = t
    · subst h; simp
    · simp [h]
  cases hh : c.topics.HasSubscription c.mem (c.mem t).Path with
  | true => rw [Subscribe_existing c err t hh]; exact hset c
  | false =>
    cases err with
    | some e => rw [Subscribe_fresh_err c e t hh]
    | none => rw [Subscribe_fresh_ok c t hh]; exact hset _

/-- C8: when the request path resolves to a stored topic that is active,
`RunStream` returns the error `stream already running` at once, whatever the
events and broker answers, and leaves the whole state as it was: no broker
call, no `Client.Subscribe` or `Client.Unsubscribe` call, no registry entry
removed, no `Active` flag changed, no buffer drained, nothing sent. -/
theorem C8_active_stream_rejected {Frame : Type} (digest : Digest)
    (toFrame : List Message → Except Error Frame) (subErr unsubErr : Option Error) (c : client)
    (reqPath : String) (events : List StreamEvent) (t : Ptr)
    (hGet : c.GetTopic reqPath = some t) (hAct : (c.mem t).Active = true) :
    (RunStream digest toFrame subErr unsubErr c reqPath events).returned =
      Outcome.Returned (some ("stream already running " ++ reqPath)) ∧
    (RunStream digest toFrame subErr unsubErr c reqPath events).state = c ∧
    (RunStream digest toFrame subErr unsubErr c reqPath events).clientCalls =
      [ClientCall.GetTopic reqPath] ∧
    (RunStream digest toFrame subErr unsubErr c reqPath events).drains = 0 ∧
    (RunStream digest toFrame subErr unsubErr c reqPath events).sent = [] := by
  rw [RunStream_active digest toFrame subErr unsubErr c reqPath events t hGet hAct]
  exact ⟨rfl, rfl, rfl, rfl, rfl⟩

/-- Witness of C8: a second stream on the first of two active topics, with
ticks and a cancellation pending. -/
theorem C8_active_stream_rejected_witness :
    (RunStream plainDigest countFrame none none twoActive "false/1s/a"
        [StreamEvent.Tick none, StreamEvent.Done]).returned =
      Outcome.Returned (some ("stream already running " ++ "false/1s/a")) ∧
    (RunStream plainDigest countFrame none none twoActive "false/1s/a"
        [StreamEvent.Tick none, StreamEvent.Done]).clientCalls =
      [ClientCall.GetTopic "false/1s/a"] :=
  have h := C8_active_stream_rejected plainDigest countFrame none none twoActive "false/1s/a"
    [StreamEvent.Tick none, StreamEvent.Done] 0 (by decide) (by decide)
  ⟨h.1, h.2.2.1⟩

/-- C9: for a topic that is inactive and has no active stored topic on its
path, when the broker answers the subscribe request with the error `e`,
`client.Subscribe` returns `e`, leaves the topic inactive and the memory and
registry unchanged, and `RunStream` on a request path resolving to that topic
returns `e` without any tick: no drain, nothing sent, no `Unsubscribe`. -/
theorem C9_subscribe_failure_surfaces {Frame : Type} (digest : Digest)
    (toFrame : List Message → Except Error Frame) (unsubErr : Option Error) (c : client)
    (t : Ptr) (e : Error)
    (hNo : c.topics.HasSubscription c.mem (c.mem t).Path = false)
    (hInactive : (c.mem t).Active = false) :
    (c.Subscribe (some e) t).2 = some e ∧
    ((c.Subscribe (some e) t).1.mem t).Active = false ∧
    (c.Subscribe (some e) t).1.mem = c.mem ∧
    (c.Subscribe (some e) t).1.topics = c.topics ∧
    (∀ (reqPath : String) (events : List StreamEvent), c.GetTopic reqPath = some t →
      (RunStream digest toFrame (some e) unsubErr c reqPath events).returned =
        Outcome.Returned (some e) ∧
      (RunStream digest toFrame (some e) unsubErr c reqPath events).drains = 0 ∧
      (RunStream digest toFrame (some e) unsubErr c reqPath events).sent = [] ∧
      (RunStream digest toFrame (some e) unsubErr c reqPath events).clientCalls =
        [ClientCall.GetTopic reqPath, ClientCall.Subscribe t] ∧
      (RunStream digest toFrame (some e) unsubErr c reqPath events).state.mem = c.mem ∧
      (RunStream digest toFrame (some e) unsubErr c reqPath events).state.topics = c.topics) := by
  have hS := Subscribe_fresh_err c e t hNo
  refine ⟨by rw [hS], by rw [hS]; exact hInactive, by rw [hS], by rw [hS], ?_⟩
  intro reqPath events hGet
  rw [RunStream_subscribeError digest toFrame (some e) unsubErr c reqPath events t e hGet
    hInactive (by rw [hS])]
  refine ⟨rfl, rfl, rfl, rfl, ?_, ?_⟩
  · show (c.Subscribe (some e) t).1.mem = c.mem
    rw [hS]
  · show (c.Subscribe (some e) t).1.topics = c.topics
    rw [hS]

/-- Witness of C9 on the client holding two stored, inactive topics, the
broker refusing with `refused`. -/
theorem C9_subscribe_failure_surfaces_witness :
    (twoStored.Subscribe (some "refused") 0).2 = some "refused" ∧
    (RunStream plainDigest countFrame (some "refused") none twoStored "false/1s/a"
        [StreamEvent.Tick none, StreamEvent.Done]).returned =
      Outcome.Returned (some "refused") :=
  have h := C9_subscribe_failure_surfaces plainDigest countFrame none twoStored 0 "refused"
    (by decide) (by decide)
  ⟨h.1, (h.2.2.2.2 "false/1s/a" [StreamEvent.Tick none, StreamEvent.Done] (by decide)).1⟩

/-- C10, the claim as stated fails: a request for a stored topic that is
already active makes `RunStream` return an error without any
`Client.Unsubscribe` call; so does a request for an unknown path, and one whose
subscribe request the broker refuses. -/
theorem C10_counterexample_early_return_without_release :
    (RunStream plainDigest countFrame none none twoActive "false/1s/a"
        [StreamEvent.Done]).returned =
      Outcome.Returned (some "stream already running false/1s/a") ∧
    unsubscribeCalls (RunStream plainDigest countFrame none none twoActive "false/1s/a"
        [StreamEvent.Done]).clientCalls = [] ∧
    (RunStream plainDigest countFrame none none twoActive "nowhere"
        [StreamEvent.Done]).returned =
      Outcome.Returned (some "topic not found nowhere") ∧
    unsubscribeCalls (RunStream plainDigest countFrame none none twoActive "nowhere"
        [StreamEvent.Done]).clientCalls = [] ∧
    (RunStream plainDigest countFrame (some "refused") none twoStored "false/1s/a"
        [StreamEvent.Done]).returned =
      Outcome.Returned (some "refused") ∧
    unsubscribeCalls (RunStream plainDigest countFrame (some "refused") none twoStored
        "false/1s/a" [StreamEvent.Done]).clientCalls = [] := by
  decide

theorem unsubscribeCalls_start (reqPath : String) (t : Ptr) :
    unsubscribeCalls [ClientCall.GetTopic reqPath, ClientCall.Subscribe t] = [] ∧
    unsubscribeCalls
      ([ClientCall.GetTopic reqPath, ClientCall.Subscribe t] ++ [ClientCall.Unsubscribe t]) = [t] ∧
    unsubscribeCalls [ClientCall.GetTopic reqPath] = [] :=
  ⟨rfl, rfl, rfl⟩

/-- C10 (amended): `RunStream` calls `Client.Unsubscribe(topic)` exactly once
on every exit that follows a successful `Subscribe` (the return on
cancellation, and the panic of the ticker on a non-positive interval), and not
at all when it returns an error (topic not found, stream already running,
subscribe refused) or is still waiting; in particular, for a stored inactive
topic with a positive interval whose subscription succeeds, a cancellation
arriving after any number of ticks makes `RunStream` return nil after exactly
one `Client.Unsubscribe(topic)` call. -/
theorem C10_release_once_after_subscribe {Frame : Type} (digest : Digest)
    (toFrame : List Message → Except Error Frame) (subErr unsubErr : Option Error) (c : client)
    (reqPath : String) :
    (∀ (events : List StreamEvent) (err : Error),
      (RunStream digest toFrame subErr unsubErr c reqPath events).returned =
        Outcome.Returned (some err) →
      unsubscribeCalls (RunStream digest toFrame subErr unsubErr c reqPath events).clientCalls
        = []) ∧
    (∀ events : List StreamEvent,
      (RunStream digest toFrame subErr unsubErr c reqPath events).returned = Outcome.Waiting →
      unsubscribeCalls (RunStream digest toFrame subErr unsubErr c reqPath events).clientCalls
        = []) ∧
    (∀ events : List StreamEvent,
      ((RunStream digest toFrame subErr unsubErr c reqPath events).returned =
          Outcome.Returned none ∨
        (RunStream digest toFrame subErr unsubErr c reqPath events).returned =
          Outcome.Panicked) →
      ∃ t, c.GetTopic reqPath = some t ∧ (c.Subscribe subErr t).2 = none ∧
        unsubscribeCalls (RunStream digest toFrame subErr unsubErr c reqPath events).clientCalls
          = [t]) ∧
    (∀ (t : Ptr) (ticks rest : List StreamEvent), c.GetTopic reqPath = some t →
      (c.mem t).Active = false → (c.Subscribe subErr t).2 = none → 0 < (c.mem t).Interval →
      StreamEvent.Done ∉ ticks →
      (RunStream digest toFrame subErr unsubErr c reqPath
          (ticks ++ StreamEvent.Done :: rest)).returned = Outcome.Returned none ∧
      unsubscribeCalls (RunStream digest toFrame subErr unsubErr c reqPath
          (ticks ++ StreamEvent.Done :: rest)).clientCalls = [t] ∧
      (RunStream digest toFrame subErr unsubErr c reqPath
          (ticks ++ StreamEvent.Done :: rest)).drains = ticks.length) := by
  have hcases : ∀ events : List StreamEvent,
      ((∃ err, (RunStream digest toFrame subErr unsubErr c reqPath events).returned =
            Outcome.Returned (some err)) ∧
        unsubscribeCalls (RunStream digest toFrame subErr unsubErr c reqPath events).clientCalls
          = []) ∨
      ((RunStream digest toFrame subErr unsubErr c reqPath events).returned = Outcome.Waiting ∧
        unsubscribeCalls (RunStream digest toFrame subErr unsubErr c reqPath events).clientCalls
          = []) ∨
      (((RunStream digest toFrame subErr unsubErr c reqPath events).returned =
            Outcome.Returned none ∨
          (RunStream digest toFrame subErr unsubErr c reqPath events).returned =
            Outcome.Panicked) ∧
        ∃ t, c.GetTopic reqPath = some t ∧ (c.Subscribe subErr t).2 = none ∧
          unsubscribeCalls (RunStream digest toFrame subErr unsubErr c reqPath events).clientCalls
            = [t]) := by
    intro events
    cases hGet : c.GetTopic reqPath with
    | none =>
      rw [RunStream_notFound digest toFrame subErr unsubErr c reqPath events hGet]
      exact Or.inl ⟨⟨_, rfl⟩, rfl⟩
    | some t =>
      cases hAct : (c.mem t).Active with
      | true =>
        rw [RunStream_active digest toFrame subErr unsubErr c reqPath events t hGet hAct]
        exact Or.inl ⟨⟨_, rfl⟩, rfl⟩
      | false =>
        cases hSub : (c.Subscribe subErr t).2 with
        | some err =>
          rw [RunStream_subscribeError digest toFrame subErr unsubErr c reqPath events t err hGet
            hAct hSub]
          exact Or.inl ⟨⟨_, rfl⟩, rfl⟩
        | none =>
          by_cases hInt : ((c.Subscribe subErr t).1.mem t).Interval ≤ 0
          · rw [RunStream_panic digest toFrame subErr unsubErr c reqPath events t hGet hAct hSub
              hInt]
            exact Or.inr (Or.inr ⟨Or.inr rfl, t, rfl, hSub, rfl⟩)
          · rw [RunStream_pump digest toFrame subErr unsubErr c reqPath events t hGet hAct hSub
              hInt]
            rcases pumpLoop_spec digest toFrame unsubErr t events (c.Subscribe subErr t).1
              [ClientCall.GetTopic reqPath, ClientCall.Subscribe t] 0 [] with h | h
            · refine Or.inr (Or.inl ⟨h.1, ?_⟩)
              rw [h.2]; rfl
            · refine Or.inr (Or.inr ⟨Or.inl h.1, t, rfl, hSub, ?_⟩)
              rw [h.2]; rfl
  refine ⟨?_, ?_, ?_, ?_⟩
  · intro events err hret
    rcases hcases events with h | h | h
    · exact h.2
    · exact h.2
    · rcases h.1 with h1 | h1
      · rw [h1] at hret; cases hret
      · rw [h1] at hret; cases hret
  · intro events hret
    rcases hcases events with h | h | h
    · exact h.2
    · exact h.2
    · rcases h.1 with h1 | h1
      · rw [h1] at hret; cases hret
      · rw [h1] at hret; cases hret
  · intro events hret
    rcases hcases events with h | h | h
    · obtain ⟨⟨err, herr⟩, _⟩ := h
      rcases hret with h1 | h1
      · rw [h1] at herr; cases herr
      · rw [h1] at herr; cases herr
    · rcases hret with h1 | h1
      · rw [h1] at h; cases h.1
      · rw [h1] at h; cases h.1
    · exact h.2
  · intro t ticks rest hGet hAct hSub hInt hTicks
    have hInt2 : ¬ ((c.Subscribe subErr t).1.mem t).Interval ≤ 0 := by
      rw [Subscribe_Interval]; omega
    rw [RunStream_pump digest toFrame subErr unsubErr c reqPath _ t hGet hAct hSub hInt2]
    have h := pumpLoop_cancel digest toFrame unsubErr t ticks rest hTicks
      (c.Subscribe subErr t).1 [ClientCall.GetTopic reqPath, ClientCall.Subscribe t] 0 []
    refine ⟨h.1, ?_, ?_⟩
    · rw [h.2.1]; rfl
    · rw [h.2.2]; omega

/-- Witness of C10 (amended): a stream on a stored inactive topic, two ticks,
then cancellation: nil is returned after one `Unsubscribe` of the topic. -/
theorem C10_release_once_after_subscribe_witness :
    (RunStream plainDigest countFrame none none twoStored "false/1s/a"
        ([StreamEvent.Tick none, StreamEvent.Tick none] ++ StreamEvent.Done :: [])).returned =
      Outcome.Returned none ∧
    unsubscribeCalls (RunStream plainDigest countFrame none none twoStored "false/1s/a"
        ([StreamEvent.Tick none, StreamEvent.Tick none] ++ StreamEvent.Done :: [])).clientCalls
      = [0] :=
  have h := (C10_release_once_after_subscribe plainDigest countFrame none none twoStored
    "false/1s/a").2.2.2 0 [StreamEvent.Tick none, StreamEvent.Tick none] []
    (by decide) (by decide) (by decide) (by decide) (by decide)
  ⟨h.1, h.2.1⟩

end MQTT
